import Mathlib

/-!
Verification of the FireRed memory-bridge core against its specification.

The definitions below are shallow embeddings of the Python source:
pure functions over byte lists (`List Nat`, each entry a byte value) and
explicit state records.  Machine integers are modelled as `Nat` with the
masks the source applies.
-/

set_option maxRecDepth 4000

/- ===================================================================
   Bag / inventory parsing (firered_bridge/player/bag.py)
   =================================================================== -/

def ITEM_ENTRY_SIZE : Nat := 4

/-- One parsed bag item slot: decoded item id and XOR-unmasked quantity
(the source dict also carries a display name resolved from ROM data). -/
structure BagItem where
  id : Nat
  quantity : Nat
  deriving DecidableEq, Repr

/-- Item id of slot `i`: `(raw[off+1] << 8) | raw[off]` with `off = i * ITEM_ENTRY_SIZE`. -/
def slotItemId (raw : List Nat) (i : Nat) : Nat :=
  (raw.getD (ITEM_ENTRY_SIZE * i + 1) 0) <<< 8 ||| raw.getD (ITEM_ENTRY_SIZE * i) 0

/-- Encrypted quantity of slot `i`: `(raw[off+3] << 8) | raw[off+2]`. -/
def slotEncQty (raw : List Nat) (i : Nat) : Nat :=
  (raw.getD (ITEM_ENTRY_SIZE * i + 3) 0) <<< 8 ||| raw.getD (ITEM_ENTRY_SIZE * i + 2) 0

/-- Slot loop of `_read_pocket_items_from_raw`: `fuel` counts the remaining
iterations of `for i in range(cap)`, `i` is the slot index and
`consecutiveEmpty` the running count of consecutive `item_id == 0` slots. -/
def readPocketItemsAux (raw : List Nat) (key16 : Nat) :
    Nat → Nat → Nat → List BagItem
  | 0, _, _ => []
  | fuel + 1, i, consecutiveEmpty =>
    if ITEM_ENTRY_SIZE * i + 3 ≥ raw.length then []
    else
      let itemId := slotItemId raw i
      if itemId = 0 then
        if consecutiveEmpty + 1 ≥ 3 then []
        else readPocketItemsAux raw key16 fuel (i + 1) (consecutiveEmpty + 1)
      else
        { id := itemId, quantity := Nat.xor (slotEncQty raw i) key16 } ::
          readPocketItemsAux raw key16 fuel (i + 1) 0

/-- `_read_pocket_items_from_raw(raw, cap, sec_key)`: parse up to `cap` item
slots, XOR-unmasking quantities with the low 16 bits of the security key and
stopping at the third consecutive empty slot. -/
def read_pocket_items_from_raw (raw : List Nat) (cap : Nat) (secKey : Nat) :
    List BagItem :=
  if raw.length = 0 ∨ cap = 0 then []
  else readPocketItemsAux raw (secKey &&& 0xFFFF) cap 0 0

/-- Does the consecutive-empty-slot counter reach 3 while scanning slots
`i, i+1, …` for `n` steps, starting from count `c`?  (Specification-side
predicate used to state when parsing reaches a given slot.) -/
def bagEmptyRunStops (raw : List Nat) : Nat → Nat → Nat → Bool
  | 0, _, _ => false
  | n + 1, i, c =>
    if slotItemId raw i = 0 then
      if c + 1 ≥ 3 then true else bagEmptyRunStops raw n (i + 1) (c + 1)
    else bagEmptyRunStops raw n (i + 1) 0

lemma readPocketItemsAux_mem (raw : List Nat) (key16 : Nat) :
    ∀ fuel i c item, item ∈ readPocketItemsAux raw key16 fuel i c →
      ∃ j, i ≤ j ∧ j < i + fuel ∧ item.id = slotItemId raw j ∧ item.id ≠ 0 ∧
        item.quantity = Nat.xor (slotEncQty raw j) key16 := by
  intro fuel
  induction fuel with
  | zero => intro i c item h; simp [readPocketItemsAux] at h
  | succ n ih =>
    intro i c item h
    rw [readPocketItemsAux] at h
    by_cases hb : ITEM_ENTRY_SIZE * i + 3 ≥ raw.length
    · simp [hb] at h
    · rw [if_neg hb] at h
      by_cases hid : slotItemId raw i = 0
      · rw [if_pos hid] at h
        by_cases hc : c + 1 ≥ 3
        · simp [hc] at h
        · rw [if_neg hc] at h
          obtain ⟨j, hj1, hj2, hj3⟩ := ih (i + 1) (c + 1) item h
          exact ⟨j, by omega, by omega, hj3⟩
      · rw [if_neg hid] at h
        rcases List.mem_cons.mp h with hhead | htail
        · refine ⟨i, le_refl i, by omega, ?_, ?_, ?_⟩ <;> simp [hhead, hid]
        · obtain ⟨j, hj1, hj2, hj3⟩ := ih (i + 1) 0 item htail
          exact ⟨j, by omega, by omega, hj3⟩

lemma readPocketItemsAux_reach (raw : List Nat) (key16 : Nat) :
    ∀ n fuel i c, n < fuel → ITEM_ENTRY_SIZE * (i + n) + 3 < raw.length →
      slotItemId raw (i + n) ≠ 0 → bagEmptyRunStops raw n i c = false →
      ({ id := slotItemId raw (i + n),
         quantity := Nat.xor (slotEncQty raw (i + n)) key16 } : BagItem) ∈
        readPocketItemsAux raw key16 fuel i c := by
  intro n
  induction n with
  | zero =>
    intro fuel i c hfuel hlen hid _hstop
    obtain ⟨f, rfl⟩ : ∃ f, fuel = f + 1 := ⟨fuel - 1, by omega⟩
    rw [readPocketItemsAux]
    simp only [Nat.add_zero] at hlen hid ⊢
    rw [if_neg (by omega), if_neg hid]
    exact List.mem_cons_self _ _
  | succ m ih =>
    intro fuel i c hfuel hlen hid hstop
    obtain ⟨f, rfl⟩ : ∃ f, fuel = f + 1 := ⟨fuel - 1, by omega⟩
    have harith : i + 1 + m = i + (m + 1) := by omega
    have hlen2 : ITEM_ENTRY_SIZE * (i + 1 + m) + 3 < raw.length := by
      rw [harith]; exact hlen
    have hid2 : slotItemId raw (i + 1 + m) ≠ 0 := by
      rw [harith]; exact hid
    have hesz : ITEM_ENTRY_SIZE = 4 := rfl
    rw [readPocketItemsAux]
    rw [if_neg (by rw [hesz] at hlen2 ⊢; omega)]
    rw [bagEmptyRunStops] at hstop
    by_cases h0 : slotItemId raw i = 0
    · rw [if_pos h0] at hstop
      by_cases hc : c + 1 ≥ 3
      · rw [if_pos hc] at hstop; exact absurd hstop (by simp)
      · rw [if_neg hc] at hstop
        rw [if_pos h0, if_neg hc]
        have := ih f (i + 1) (c + 1) (by omega) hlen2 hid2 hstop
        rwa [harith] at this
    · rw [if_neg h0] at hstop
      rw [if_neg h0]
      refine List.mem_cons_of_mem _ ?_
      have := ih f (i + 1) 0 (by omega) hlen2 hid2 hstop
      rwa [harith] at this

lemma readPocketItemsAux_stop_one (raw : List Nat) (key16 : Nat) :
    ∀ fuel j c, slotItemId raw j = 0 → 2 ≤ c →
      readPocketItemsAux raw key16 fuel j c =
        readPocketItemsAux raw key16 (min fuel 1) j c := by
  intro fuel j c h0 hc
  match fuel with
  | 0 => rfl
  | f + 1 =>
    have hmin : min (f + 1) 1 = 1 := by omega
    rw [hmin, readPocketItemsAux, readPocketItemsAux]
    by_cases hb : ITEM_ENTRY_SIZE * j + 3 ≥ raw.length
    · rw [if_pos hb, if_pos hb]
    · rw [if_neg hb, if_neg hb, if_pos h0, if_pos h0, if_pos (by omega),
        if_pos (by omega)]

lemma readPocketItemsAux_stop_two (raw : List Nat) (key16 : Nat) :
    ∀ fuel j c, slotItemId raw j = 0 → slotItemId raw (j + 1) = 0 → 1 ≤ c →
      readPocketItemsAux raw key16 fuel j c =
        readPocketItemsAux raw key16 (min fuel 2) j c := by
  intro fuel j c h0 h1 hc
  match fuel with
  | 0 => rfl
  | f + 1 =>
    have hmin : min (f + 1) 2 = min f 1 + 1 := by omega
    rw [hmin, readPocketItemsAux, readPocketItemsAux]
    by_cases hb : ITEM_ENTRY_SIZE * j + 3 ≥ raw.length
    · rw [if_pos hb, if_pos hb]
    · rw [if_neg hb, if_neg hb, if_pos h0, if_pos h0]
      by_cases hc3 : c + 1 ≥ 3
      · rw [if_pos hc3, if_pos hc3]
      · rw [if_neg hc3, if_neg hc3]
        exact readPocketItemsAux_stop_one raw key16 f (j + 1) (c + 1) h1 (by omega)

lemma readPocketItemsAux_stop_three (raw : List Nat) (key16 k : Nat)
    (h0 : slotItemId raw k = 0) (h1 : slotItemId raw (k + 1) = 0)
    (h2 : slotItemId raw (k + 2) = 0) :
    ∀ fuel i c, i ≤ k →
      readPocketItemsAux raw key16 fuel i c =
        readPocketItemsAux raw key16 (min fuel (k + 3 - i)) i c := by
  intro fuel
  induction fuel with
  | zero => intro i c _; rw [Nat.zero_min]
  | succ f ih =>
    intro i c hik
    have hmin : min (f + 1) (k + 3 - i) = min f (k + 2 - i) + 1 := by omega
    rw [hmin, readPocketItemsAux, readPocketItemsAux]
    by_cases hb : ITEM_ENTRY_SIZE * i + 3 ≥ raw.length
    · rw [if_pos hb, if_pos hb]
    · rw [if_neg hb, if_neg hb]
      by_cases hid : slotItemId raw i = 0
      · rw [if_pos hid, if_pos hid]
        by_cases hc3 : c + 1 ≥ 3
        · rw [if_pos hc3, if_pos hc3]
        · rw [if_neg hc3, if_neg hc3]
          by_cases hik2 : i + 1 ≤ k
          · have := ih (i + 1) (c + 1) hik2
            have harith : k + 2 - i = k + 3 - (i + 1) := by omega
            rwa [harith]
          · -- i = k: slots k+1, k+2 are empty and the counter is ≥ 1
            have hik3 : i = k := by omega
            rw [hik3]
            have harith : k + 2 - k = 2 := by omega
            rw [harith]
            exact readPocketItemsAux_stop_two raw key16 f (k + 1) (c + 1)
              h1 (by simpa using h2) (by omega)
      · rw [if_neg hid, if_neg hid]
        have hik2 : i + 1 ≤ k := by
          rcases Nat.lt_or_ge i k with h | h
          · omega
          · have hik3 : i = k := by omega
            rw [hik3] at hid
            exact absurd h0 hid
        have := ih (i + 1) 0 hik2
        have harith : k + 2 - i = k + 3 - (i + 1) := by omega
        rw [this, harith]

/-- Claim C1: every parsed bag item (non-zero decoded item id) reports
`quantity = enc_qty XOR (security_key AND 0xFFFF)`; in particular, with
security key `0xCAFEBABE` and slot bytes `0B 00 41 B0` the parser reports
item id 11 with quantity 2815. -/
theorem bag_quantity_xor_decode :
    (∀ raw cap secKey item, item ∈ read_pocket_items_from_raw raw cap secKey →
      ∃ j, j < cap ∧ item.id = slotItemId raw j ∧ item.id ≠ 0 ∧
        item.quantity = Nat.xor (slotEncQty raw j) (secKey &&& 0xFFFF)) ∧
    read_pocket_items_from_raw [0x0B, 0x00, 0x41, 0xB0] 1 0xCAFEBABE =
      [{ id := 11, quantity := 2815 }] := by
  constructor
  · intro raw cap secKey item h
    rw [read_pocket_items_from_raw] at h
    by_cases hg : raw.length = 0 ∨ cap = 0
    · rw [if_pos hg] at h
      exact absurd h (List.not_mem_nil item)
    · rw [if_neg hg] at h
      obtain ⟨j, _hj0, hj1, hj2⟩ :=
        readPocketItemsAux_mem raw (secKey &&& 0xFFFF) cap 0 0 item h
      exact ⟨j, by omega, hj2⟩
  · decide

theorem bag_quantity_xor_decode_witness :
    ∃ j, j < 1 ∧
      (({ id := 11, quantity := 2815 } : BagItem)).id =
        slotItemId [0x0B, 0x00, 0x41, 0xB0] j ∧
      (({ id := 11, quantity := 2815 } : BagItem)).id ≠ 0 ∧
      (({ id := 11, quantity := 2815 } : BagItem)).quantity =
        Nat.xor (slotEncQty [0x0B, 0x00, 0x41, 0xB0] j) (0xCAFEBABE &&& 0xFFFF) :=
  bag_quantity_xor_decode.1 [0x0B, 0x00, 0x41, 0xB0] 1 0xCAFEBABE
    { id := 11, quantity := 2815 } (by decide)

/-- Claim C9: pocket parsing stops at the third consecutive empty slot and
not earlier.  (a) With three consecutive empty slots at `k, k+1, k+2`, the
result ignores every slot from `k+3` on (parsing a capacity of
`min cap (k+3)` gives the same result); (b) a non-empty in-bounds slot is
parsed into the result whenever the consecutive-empty counter never reaches
3 before it (in particular after only one or two consecutive empty slots);
(c) concretely, an item after two empty slots is still parsed; (d) an item
after three consecutive empty slots is not. -/
theorem bag_three_empty_slot_termination :
    (∀ raw cap secKey k, slotItemId raw k = 0 → slotItemId raw (k + 1) = 0 →
      slotItemId raw (k + 2) = 0 →
      read_pocket_items_from_raw raw cap secKey =
        read_pocket_items_from_raw raw (min cap (k + 3)) secKey) ∧
    (∀ raw cap secKey j, j < cap → ITEM_ENTRY_SIZE * j + 3 < raw.length →
      slotItemId raw j ≠ 0 → bagEmptyRunStops raw j 0 0 = false →
      ({ id := slotItemId raw j,
         quantity := Nat.xor (slotEncQty raw j) (secKey &&& 0xFFFF) } : BagItem) ∈
        read_pocket_items_from_raw raw cap secKey) ∧
    read_pocket_items_from_raw
      [0, 0, 0, 0, 0, 0, 0, 0, 0x0B, 0x00, 0x41, 0xB0] 3 0xCAFEBABE =
      [{ id := 11, quantity := 2815 }] ∧
    read_pocket_items_from_raw
      [0, 0, 0, 0, 0, 0, 0, 0, 0, 0, 0, 0, 0x0B, 0x00, 0x41, 0xB0] 4 0xCAFEBABE =
      [] := by
  refine ⟨?_, ?_, by decide, by decide⟩
  · intro raw cap secKey k h0 h1 h2
    rw [read_pocket_items_from_raw, read_pocket_items_from_raw]
    by_cases hg : raw.length = 0 ∨ cap = 0
    · rcases hg with hg | hg <;> simp [hg]
    · rw [if_neg hg, if_neg (by omega)]
      exact readPocketItemsAux_stop_three raw (secKey &&& 0xFFFF) k h0 h1 h2 cap 0 0
        (Nat.zero_le k)
  · intro raw cap secKey j hj hlen hid hstop
    rw [read_pocket_items_from_raw, if_neg (by omega)]
    have := readPocketItemsAux_reach raw (secKey &&& 0xFFFF) j cap 0 0 hj
      (by simpa using hlen) (by simpa using hid) hstop
    simpa using this

theorem bag_three_empty_slot_termination_witness :
    read_pocket_items_from_raw
        [0, 0, 0, 0, 0, 0, 0, 0, 0, 0, 0, 0, 0x0B, 0x00, 0x41, 0xB0] 9 0xCAFEBABE =
      read_pocket_items_from_raw
        [0, 0, 0, 0, 0, 0, 0, 0, 0, 0, 0, 0, 0x0B, 0x00, 0x41, 0xB0] 3 0xCAFEBABE ∧
    ({ id := 11, quantity := 2815 } : BagItem) ∈
      read_pocket_items_from_raw
        [0, 0, 0, 0, 0, 0, 0, 0, 0x0B, 0x00, 0x41, 0xB0] 3 0xCAFEBABE := by
  constructor
  · have := bag_three_empty_slot_termination.1
      [0, 0, 0, 0, 0, 0, 0, 0, 0, 0, 0, 0, 0x0B, 0x00, 0x41, 0xB0] 9 0xCAFEBABE 0
      (by decide) (by decide) (by decide)
    simpa using this
  · have := bag_three_empty_slot_termination.2.1
      [0, 0, 0, 0, 0, 0, 0, 0, 0x0B, 0x00, 0x41, 0xB0] 3 0xCAFEBABE 2
      (by decide) (by decide) (by decide) (by decide)
    simpa using this

/- ===================================================================
   Map reading: deriving the main grid from the backup (VMap) grid
   (firered_bridge/world/map_read.py)
   =================================================================== -/

def MAP_OFFSET : Nat := 7

/-- Row loop of `_derive_main_tiles_from_backup`: copy `n` remaining rows
starting at main row `y`, each taken from the backup grid at
`start = (y + MAP_OFFSET) * backupW + MAP_OFFSET`, aborting (like the
source's early `return None`) when a row slice would run past the end. -/
def deriveRows (backupTiles : List Nat) (mainW backupW : Nat) :
    Nat → Nat → Option (List Nat)
  | 0, _y => some []
  | n + 1, y =>
    let start := (y + MAP_OFFSET) * backupW + MAP_OFFSET
    if start + mainW > backupTiles.length then none
    else
      match deriveRows backupTiles mainW backupW n (y + 1) with
      | none => none
      | some rest => some (((backupTiles.drop start).take mainW) ++ rest)

/-- `_derive_main_tiles_from_backup`: produce the main grid from the backup
(VMap) grid when the backup dimensions cover the main grid plus the engine's
border, `none` otherwise. -/
def derive_main_tiles_from_backup (mainW mainH backupW backupH : Nat)
    (backupTiles : List Nat) : Option (List Nat) :=
  if mainW = 0 ∨ mainH = 0 ∨ backupW = 0 ∨ backupH = 0 ∨ backupTiles.length = 0 then
    none
  else if backupW < mainW + (MAP_OFFSET * 2 + 1) ∨ backupH < mainH + MAP_OFFSET * 2 then
    none
  else if backupTiles.length < backupW * backupH then none
  else
    match deriveRows backupTiles mainW backupW mainH 0 with
    | none => none
    | some out => if out.length = mainW * mainH then some out else none

/-- Caller logic of `_read_map_tiles_and_behaviors_fast`: the raw main grid
is replaced by the derived grid exactly when the derivation succeeds. -/
def resolve_main_tiles (rawMain : List Nat) (mainW mainH backupW backupH : Nat)
    (backupTiles : List Nat) : List Nat :=
  match derive_main_tiles_from_backup mainW mainH backupW backupH backupTiles with
  | some derived => derived
  | none => rawMain

lemma deriveRows_spec (bt : List Nat) (mw bw : Nat) :
    ∀ n y, (∀ r, r < n → (y + r + MAP_OFFSET) * bw + MAP_OFFSET + mw ≤ bt.length) →
      ∃ out, deriveRows bt mw bw n y = some out ∧ out.length = n * mw ∧
        ∀ r c, r < n → c < mw →
          out.getD (r * mw + c) 0 =
            bt.getD ((y + r + MAP_OFFSET) * bw + (c + MAP_OFFSET)) 0 := by
  intro n
  induction n with
  | zero =>
    intro y _
    exact ⟨[], rfl, by simp, fun r c hr _ => absurd hr (Nat.not_lt_zero r)⟩
  | succ m ih =>
    intro y hbound
    have h0 := hbound 0 (Nat.succ_pos m)
    rw [Nat.add_zero] at h0
    obtain ⟨rest, hrest, hrestlen, hrestidx⟩ := ih (y + 1) (fun r hr => by
      have := hbound (r + 1) (by omega)
      have harith : y + (r + 1) + MAP_OFFSET = y + 1 + r + MAP_OFFSET := by omega
      rwa [harith] at this)
    have hstart : (y + MAP_OFFSET) * bw + MAP_OFFSET + mw ≤ bt.length := h0
    refine ⟨((bt.drop ((y + MAP_OFFSET) * bw + MAP_OFFSET)).take mw) ++ rest, ?_, ?_, ?_⟩
    · rw [deriveRows, if_neg (by omega), hrest]
    · have hdl : (bt.drop ((y + MAP_OFFSET) * bw + MAP_OFFSET)).length =
          bt.length - ((y + MAP_OFFSET) * bw + MAP_OFFSET) := List.length_drop _ _
      have htl : ((bt.drop ((y + MAP_OFFSET) * bw + MAP_OFFSET)).take mw).length = mw := by
        rw [List.length_take, hdl]
        omega
      rw [List.length_append, htl, hrestlen]
      ring
    · intro r c hr hc
      have htl : ((bt.drop ((y + MAP_OFFSET) * bw + MAP_OFFSET)).take mw).length = mw := by
        rw [List.length_take, List.length_drop]
        omega
      match r with
      | 0 =>
        rw [Nat.zero_mul, Nat.zero_add]
        rw [List.getD_append _ _ _ _ (by omega)]
        rw [List.getD_eq_getElem?_getD, List.getD_eq_getElem?_getD]
        rw [List.getElem?_take, List.getElem?_drop]
        rw [if_pos hc]
        have harith : (y + MAP_OFFSET) * bw + MAP_OFFSET + c =
            (y + 0 + MAP_OFFSET) * bw + (c + MAP_OFFSET) := by ring
        rw [harith]
      | r' + 1 =>
        have hidx : (r' + 1) * mw + c = mw + (r' * mw + c) := by ring
        rw [hidx, List.getD_append_right _ _ _ _ (by omega)]
        rw [htl]
        have hsub : mw + (r' * mw + c) - mw = r' * mw + c := by omega
        rw [hsub]
        have := hrestidx r' c (by omega) hc
        have harith : y + 1 + r' + MAP_OFFSET = y + (r' + 1) + MAP_OFFSET := by omega
        rwa [harith] at this

/-- Claim C3: the main map grid is derived from the backup (VMap) grid —
cell `(x, y)` taken from backup cell `(x + MAP_OFFSET, y + MAP_OFFSET)` —
exactly when `backup_w ≥ main_w + 2*MAP_OFFSET + 1`,
`backup_h ≥ main_h + 2*MAP_OFFSET` and the backup tile list has at least
`backup_w * backup_h` entries; otherwise the raw main grid is returned
unchanged (stated for actual maps, i.e. positive main dimensions). -/
theorem backup_grid_derivation (rawMain : List Nat) (mw mh bw bh : Nat)
    (bt : List Nat) (hmw : 0 < mw) (hmh : 0 < mh) :
    ((mw + 2 * MAP_OFFSET + 1 ≤ bw ∧ mh + 2 * MAP_OFFSET ≤ bh ∧ bw * bh ≤ bt.length) →
      (resolve_main_tiles rawMain mw mh bw bh bt).length = mw * mh ∧
      ∀ x y, x < mw → y < mh →
        (resolve_main_tiles rawMain mw mh bw bh bt).getD (y * mw + x) 0 =
          bt.getD ((y + MAP_OFFSET) * bw + (x + MAP_OFFSET)) 0) ∧
    (¬(mw + 2 * MAP_OFFSET + 1 ≤ bw ∧ mh + 2 * MAP_OFFSET ≤ bh ∧ bw * bh ≤ bt.length) →
      resolve_main_tiles rawMain mw mh bw bh bt = rawMain) := by
  have hoff : MAP_OFFSET = 7 := rfl
  constructor
  · rintro ⟨hbw, hbh, hlen⟩
    have hbound : ∀ r, r < mh → (0 + r + MAP_OFFSET) * bw + MAP_OFFSET + mw ≤ bt.length := by
      intro r hr
      have h1 : MAP_OFFSET + mw ≤ bw := by omega
      have h2 : (0 + r + MAP_OFFSET) * bw + (MAP_OFFSET + mw) ≤
          (0 + r + MAP_OFFSET) * bw + bw := Nat.add_le_add_left h1 _
      have h3 : (0 + r + MAP_OFFSET) * bw + bw = (r + MAP_OFFSET + 1) * bw := by ring
      have h4 : (r + MAP_OFFSET + 1) * bw ≤ bh * bw :=
        Nat.mul_le_mul_right bw (by omega)
      calc (0 + r + MAP_OFFSET) * bw + MAP_OFFSET + mw
          = (0 + r + MAP_OFFSET) * bw + (MAP_OFFSET + mw) := by ring
        _ ≤ (0 + r + MAP_OFFSET) * bw + bw := h2
        _ = (r + MAP_OFFSET + 1) * bw := h3
        _ ≤ bh * bw := h4
        _ = bw * bh := Nat.mul_comm bh bw
        _ ≤ bt.length := hlen
    obtain ⟨out, hout, houtlen, houtidx⟩ := deriveRows_spec bt mw bw mh 0 hbound
    have hbtpos : 0 < bt.length := by
      have : 0 < bw * bh := Nat.mul_pos (by omega) (by omega)
      omega
    have hder : derive_main_tiles_from_backup mw mh bw bh bt = some out := by
      rw [derive_main_tiles_from_backup]
      rw [if_neg (by omega), if_neg (by omega), if_neg (by omega), hout]
      show (if out.length = mw * mh then some out else none) = some out
      rw [if_pos (by rw [houtlen]; ring)]
    have hresolve : resolve_main_tiles rawMain mw mh bw bh bt = out := by
      rw [resolve_main_tiles, hder]
    constructor
    · rw [hresolve, houtlen]; ring
    · intro x y hx hy
      rw [hresolve]
      have := houtidx y x hy hx
      rwa [Nat.zero_add] at this
  · intro hneg
    rw [resolve_main_tiles, derive_main_tiles_from_backup]
    by_cases h1 : mw = 0 ∨ mh = 0 ∨ bw = 0 ∨ bh = 0 ∨ bt.length = 0
    · rw [if_pos h1]
    · rw [if_neg h1]
      by_cases h2 : bw < mw + (MAP_OFFSET * 2 + 1) ∨ bh < mh + MAP_OFFSET * 2
      · rw [if_pos h2]
      · rw [if_neg h2]
        by_cases h3 : bt.length < bw * bh
        · rw [if_pos h3]
        · exact absurd ⟨by omega, by omega, Nat.not_lt.mp h3⟩ hneg

theorem backup_grid_derivation_witness :
    (resolve_main_tiles [99] 1 1 16 15
        (List.replicate 119 0 ++ 42 :: List.replicate 120 0)).getD 0 0 = 42 ∧
    resolve_main_tiles [99] 1 1 15 15
        (List.replicate 119 0 ++ 42 :: List.replicate 120 0) = [99] := by
  constructor
  · have h := (backup_grid_derivation [99] 1 1 16 15
      (List.replicate 119 0 ++ 42 :: List.replicate 120 0)
      (by decide) (by decide)).1 (by refine ⟨by decide, by decide, ?_⟩; simp)
    have h2 := h.2 0 0 (by decide) (by decide)
    rw [h2]
    decide
  · exact (backup_grid_derivation [99] 1 1 15 15
      (List.replicate 119 0 ++ 42 :: List.replicate 120 0)
      (by decide) (by decide)).2 (by decide)

/- ===================================================================
   Collision / minimap classifier (firered_bridge/world/collision.py)
   =================================================================== -/

def MAPGRID_METATILE_ID_MASK : Nat := 0x03FF
def MAPGRID_COLLISION_MASK : Nat := 0x0C00
def MAPGRID_ELEVATION_MASK : Nat := 0xF000
def MAPGRID_UNDEFINED : Nat := 0x3FF

def TILE_WALKABLE : String := "🟫"
def TILE_BLOCKED : String := "⛔"
def TILE_WATER : String := "🌊"
def TILE_WATERFALL : String := "💧↑"
def TILE_DIVE_WATER : String := "🌊🫧"
def TILE_GRASS : String := "🌿"
def TILE_RED_CARPET : String := "🟥"
def TILE_THIN_ICE : String := "🧊"
def TILE_CRACKED_ICE : String := "🧊⚡"
def TILE_CRACKED_FLOOR : String := "🟫⚡"
def TILE_STRENGTH_SWITCH : String := "🔘"

/-- The behavior-id tables consumed by the classifier.  In the source these
module-level tables are filled once at init by `_init_behavior_id_tables`
from the engine's behavior-name function (ROM data outside this repository),
so the classifier is verified for every possible table assignment. -/
structure BehaviorTables where
  LEDGE_BEHAVIOR_ID_TO_TILE : List (Int × String)
  WATERFALL_BEHAVIOR_ID : Int
  WATER_CURRENT_BEHAVIOR_ID_TO_TILE : List (Int × String)
  DIVEABLE_WATER_BEHAVIOR_IDS : List Int
  SURFABLE_WATER_BEHAVIOR_IDS : List Int
  DIRECTIONAL_IMPASSABLE_BEHAVIOR_ID_TO_TILE : List (Int × String)
  GRASS_BEHAVIOR_IDS : List Int
  RED_CARPET_BEHAVIOR_IDS : List Int
  STRENGTH_SWITCH_BEHAVIOR_ID_TO_TILE : List (Int × String)
  SPINNER_BEHAVIOR_ID_TO_TILE : List (Int × String)
  FORCED_MOVEMENT_ARROW_BEHAVIOR_ID_TO_TILE : List (Int × String)
  THIN_ICE_BEHAVIOR_IDS : List Int
  CRACKED_ICE_BEHAVIOR_IDS : List Int
  CRACKED_FLOOR_BEHAVIOR_IDS : List Int

/-- `height = (num_tiles + width - 1) // width`. -/
def mapHeight (tv : List Nat) (w : Nat) : Nat := (tv.length + w - 1) / w

/-- First-pass `present[i]`: cell filled iff `i < min(num_tiles, total_cells)`. -/
def presentAt (tv : List Nat) (w i : Nat) : Prop :=
  i < min tv.length (w * mapHeight tv w)

instance (tv : List Nat) (w i : Nat) : Decidable (presentAt tv w i) := by
  unfold presentAt; infer_instance

def tileValAt (tv : List Nat) (i : Nat) : Nat := tv.getD i 0

/-- First-pass `collision_bits_arr[i]` (bits 10-11); 0 outside the filled range. -/
def collisionBitsAt (tv : List Nat) (w i : Nat) : Nat :=
  if presentAt tv w i then (tileValAt tv i &&& MAPGRID_COLLISION_MASK) >>> 10 else 0

/-- First-pass `elev_arr[i]` (bits 12-15, with 15 = bridge inheriting the
player's elevation); 0 outside the filled range. -/
def elevAt (tv : List Nat) (w playerElev i : Nat) : Nat :=
  if presentAt tv w i then
    (let e := (tileValAt tv i &&& MAPGRID_ELEVATION_MASK) >>> 12
     if e = 15 then playerElev else e)
  else 0

/-- First-pass `is_undef_arr[i]`: value equals the `0x3FF` sentinel. -/
def isUndefAt (tv : List Nat) (w i : Nat) : Prop :=
  presentAt tv w i ∧ tileValAt tv i = MAPGRID_UNDEFINED

instance (tv : List Nat) (w i : Nat) : Decidable (isUndefAt tv w i) := by
  unfold isUndefAt; infer_instance

/-- First-pass `is_transition_arr[i]`: elevation (after bridge substitution) is 0. -/
def isTransitionAt (tv : List Nat) (w playerElev i : Nat) : Prop :=
  presentAt tv w i ∧ elevAt tv w playerElev i = 0

instance (tv : List Nat) (w playerElev i : Nat) :
    Decidable (isTransitionAt tv w playerElev i) := by
  unfold isTransitionAt; infer_instance

def metatileIdAt (tv : List Nat) (i : Nat) : Nat :=
  tileValAt tv i &&& MAPGRID_METATILE_ID_MASK

/-- First-pass `beh_id_arr[i]`: the metatile's behavior id, `-1` when the
behavior list is empty or the metatile id is out of its range. -/
def behIdAt (tv : List Nat) (w : Nat) (behaviors : List Nat) (i : Nat) : Int :=
  if presentAt tv w i ∧ behaviors ≠ [] ∧ metatileIdAt tv i < behaviors.length then
    (behaviors.getD (metatileIdAt tv i) 0 : Int)
  else -1

/-- A neighbor counts for the second-pass adjacency test when it is present,
sits at the player's elevation and has zero collision bits. -/
def neighborMatches (tv : List Nat) (w playerElev ni : Nat) : Prop :=
  presentAt tv w ni ∧ elevAt tv w playerElev ni = playerElev ∧
    collisionBitsAt tv w ni = 0

instance (tv : List Nat) (w playerElev ni : Nat) :
    Decidable (neighborMatches tv w playerElev ni) := by
  unfold neighborMatches; infer_instance

/-- `adj_same_elev`: some orthogonal (N/S/W/E) in-grid neighbor matches the
player's elevation with zero collision. -/
def adjSameElevAt (tv : List Nat) (w playerElev x y : Nat) : Prop :=
  (0 < y ∧ neighborMatches tv w playerElev (y * w + x - w)) ∨
  (y + 1 < mapHeight tv w ∧ y * w + x + w < w * mapHeight tv w ∧
    neighborMatches tv w playerElev (y * w + x + w)) ∨
  (0 < x ∧ neighborMatches tv w playerElev (y * w + x - 1)) ∨
  (x + 1 < w ∧ y * w + x + 1 < w * mapHeight tv w ∧
    neighborMatches tv w playerElev (y * w + x + 1))

instance (tv : List Nat) (w playerElev x y : Nat) :
    Decidable (adjSameElevAt tv w playerElev x y) := by
  unfold adjSameElevAt; infer_instance

/-- Second-pass tile tag from the priority chain (undefined, ledges,
waterfall, explicit collision, elevation-based passability), before the
behavior-based refinement block. -/
def baseTileTypeAt (tv : List Nat) (w : Nat) (behaviors : List Nat)
    (T : BehaviorTables) (playerElev : Nat) (playerSurf : Bool) (x y : Nat) :
    String :=
  if ¬ presentAt tv w (y * w + x) then TILE_BLOCKED
  else if isUndefAt tv w (y * w + x) then TILE_BLOCKED
  else if (T.LEDGE_BEHAVIOR_ID_TO_TILE.lookup (behIdAt tv w behaviors (y * w + x))).isSome then
    (T.LEDGE_BEHAVIOR_ID_TO_TILE.lookup (behIdAt tv w behaviors (y * w + x))).getD TILE_BLOCKED
  else if behIdAt tv w behaviors (y * w + x) ≠ -1 ∧
      behIdAt tv w behaviors (y * w + x) = T.WATERFALL_BEHAVIOR_ID then TILE_WATERFALL
  else if collisionBitsAt tv w (y * w + x) ≠ 0 then TILE_BLOCKED
  else if isTransitionAt tv w playerElev (y * w + x) then TILE_WALKABLE
  else if playerElev = 0 then TILE_WALKABLE
  else if elevAt tv w playerElev (y * w + x) = playerElev then TILE_WALKABLE
  else if elevAt tv w playerElev (y * w + x) = 3 ∧ playerSurf = true then TILE_WALKABLE
  else if adjSameElevAt tv w playerElev x y then TILE_BLOCKED
  else TILE_WALKABLE

/-- The "extra classification" block: behavior-based refinement of the tag.
Water refinements require zero collision bits; all other refinements only
apply to a `TILE_WALKABLE` tag. -/
def refineTileType (behId : Int) (coll : Nat) (T : BehaviorTables) (t : String) :
    String :=
  if coll = 0 ∧ (T.WATER_CURRENT_BEHAVIOR_ID_TO_TILE.lookup behId).isSome then
    (T.WATER_CURRENT_BEHAVIOR_ID_TO_TILE.lookup behId).getD t
  else if coll = 0 ∧ behId ∈ T.DIVEABLE_WATER_BEHAVIOR_IDS then TILE_DIVE_WATER
  else if coll = 0 ∧ behId ∈ T.SURFABLE_WATER_BEHAVIOR_IDS then TILE_WATER
  else if t = TILE_WALKABLE ∧
      (T.DIRECTIONAL_IMPASSABLE_BEHAVIOR_ID_TO_TILE.lookup behId).isSome then
    (T.DIRECTIONAL_IMPASSABLE_BEHAVIOR_ID_TO_TILE.lookup behId).getD t
  else if t = TILE_WALKABLE ∧ behId ∈ T.GRASS_BEHAVIOR_IDS then TILE_GRASS
  else if t = TILE_WALKABLE ∧ behId ∈ T.RED_CARPET_BEHAVIOR_IDS then TILE_RED_CARPET
  else if t = TILE_WALKABLE ∧
      (T.STRENGTH_SWITCH_BEHAVIOR_ID_TO_TILE.lookup behId).isSome then
    TILE_STRENGTH_SWITCH
  else if t = TILE_WALKABLE ∧ (T.SPINNER_BEHAVIOR_ID_TO_TILE.lookup behId).isSome then
    (T.SPINNER_BEHAVIOR_ID_TO_TILE.lookup behId).getD t
  else if t = TILE_WALKABLE ∧
      (T.FORCED_MOVEMENT_ARROW_BEHAVIOR_ID_TO_TILE.lookup behId).isSome then
    (T.FORCED_MOVEMENT_ARROW_BEHAVIOR_ID_TO_TILE.lookup behId).getD t
  else if t = TILE_WALKABLE ∧ behId ∈ T.THIN_ICE_BEHAVIOR_IDS then TILE_THIN_ICE
  else if t = TILE_WALKABLE ∧ behId ∈ T.CRACKED_ICE_BEHAVIOR_IDS then TILE_CRACKED_ICE
  else if t = TILE_WALKABLE ∧ behId ∈ T.CRACKED_FLOOR_BEHAVIOR_IDS then
    TILE_CRACKED_FLOOR
  else t

/-- Final per-cell tile tag: refinement applied to the priority-chain tag. -/
def tileTypeAt (tv : List Nat) (w : Nat) (behaviors : List Nat)
    (T : BehaviorTables) (playerElev : Nat) (playerSurf : Bool) (x y : Nat) :
    String :=
  refineTileType (behIdAt tv w behaviors (y * w + x))
    (collisionBitsAt tv w (y * w + x)) T
    (baseTileTypeAt tv w behaviors T playerElev playerSurf x y)

/-- `process_tiles_to_collision_map`: the width x height grid of tile tags
(the source row strings prefix each tag with its `x,y` coordinates and a
parallel grid carries numeric minimap codes for the same tags). -/
def process_tiles_to_collision_map (tv : List Nat) (w : Nat)
    (behaviors : List Nat) (T : BehaviorTables) (playerElev : Nat)
    (playerSurf : Bool) : List (List String) :=
  if w = 0 then []
  else
    (List.range (mapHeight tv w)).map fun y =>
      (List.range w).map fun x =>
        tileTypeAt tv w behaviors T playerElev playerSurf x y

lemma process_tiles_cell (tv : List Nat) (w : Nat) (behaviors : List Nat)
    (T : BehaviorTables) (playerElev : Nat) (playerSurf : Bool) (x y : Nat)
    (hx : x < w) (hy : y < mapHeight tv w) :
    ((process_tiles_to_collision_map tv w behaviors T playerElev playerSurf).getD
        y []).getD x TILE_BLOCKED =
      tileTypeAt tv w behaviors T playerElev playerSurf x y := by
  rw [process_tiles_to_collision_map, if_neg (by omega)]
  simp only [List.getD_eq_getElem?_getD, List.getElem?_map,
    List.getElem?_range hy, List.getElem?_range hx, Option.map_some',
    Option.getD_some]

lemma refineTileType_of_blocked (behId : Int) (coll : Nat) (T : BehaviorTables)
    (hc : coll ≠ 0) : refineTileType behId coll T TILE_BLOCKED = TILE_BLOCKED := by
  have hbw : ¬ (TILE_BLOCKED = TILE_WALKABLE) := by decide
  rw [refineTileType]
  rw [if_neg (fun h => hc h.1), if_neg (fun h => hc h.1), if_neg (fun h => hc h.1)]
  rw [if_neg (fun h => hbw h.1), if_neg (fun h => hbw h.1), if_neg (fun h => hbw h.1)]
  rw [if_neg (fun h => hbw h.1), if_neg (fun h => hbw h.1), if_neg (fun h => hbw h.1)]
  rw [if_neg (fun h => hbw h.1), if_neg (fun h => hbw h.1), if_neg (fun h => hbw h.1)]

/-- A behavior-table assignment matching the seed case: behavior id 2 bound
to TALL_GRASS (a grass behavior, neither a ledge nor the waterfall id). -/
def sampleBehaviorTables : BehaviorTables where
  LEDGE_BEHAVIOR_ID_TO_TILE := []
  WATERFALL_BEHAVIOR_ID := 11
  WATER_CURRENT_BEHAVIOR_ID_TO_TILE := []
  DIVEABLE_WATER_BEHAVIOR_IDS := []
  SURFABLE_WATER_BEHAVIOR_IDS := []
  DIRECTIONAL_IMPASSABLE_BEHAVIOR_ID_TO_TILE := []
  GRASS_BEHAVIOR_IDS := [2]
  RED_CARPET_BEHAVIOR_IDS := []
  STRENGTH_SWITCH_BEHAVIOR_ID_TO_TILE := []
  SPINNER_BEHAVIOR_ID_TO_TILE := []
  FORCED_MOVEMENT_ARROW_BEHAVIOR_ID_TO_TILE := []
  THIN_ICE_BEHAVIOR_IDS := []
  CRACKED_ICE_BEHAVIOR_IDS := []
  CRACKED_FLOOR_BEHAVIOR_IDS := []

/-- Claim C2: any grid cell with non-zero collision bits whose behavior is
neither a ledge nor the waterfall behavior is tagged `Wall` (`TILE_BLOCKED`),
and no refinement replaces that tag; concretely, cell value `0x0C01`
(metatile 1, collision 3, elevation 0) whose metatile behavior is TALL_GRASS
classifies as `Wall`. -/
theorem collision_bits_classify_wall :
    (∀ tv w behaviors T playerElev playerSurf x y, x < w → y < mapHeight tv w →
      collisionBitsAt tv w (y * w + x) ≠ 0 →
      (T.LEDGE_BEHAVIOR_ID_TO_TILE.lookup (behIdAt tv w behaviors (y * w + x))) = none →
      ¬(behIdAt tv w behaviors (y * w + x) ≠ -1 ∧
        behIdAt tv w behaviors (y * w + x) = T.WATERFALL_BEHAVIOR_ID) →
      ((process_tiles_to_collision_map tv w behaviors T playerElev playerSurf).getD
          y []).getD x TILE_BLOCKED = TILE_BLOCKED) ∧
    process_tiles_to_collision_map [0x0C01] 1 [0, 2] sampleBehaviorTables 0 false =
      [[TILE_BLOCKED]] := by
  constructor
  · intro tv w behaviors T playerElev playerSurf x y hx hy hcoll hledge hwf
    rw [process_tiles_cell tv w behaviors T playerElev playerSurf x y hx hy]
    have hpres : presentAt tv w (y * w + x) := by
      by_contra hnp
      exact hcoll (by rw [collisionBitsAt, if_neg hnp])
    have hundef : ¬ isUndefAt tv w (y * w + x) := by
      rintro ⟨-, hval⟩
      apply hcoll
      rw [collisionBitsAt, if_pos hpres, hval]
      decide
    have hbase : baseTileTypeAt tv w behaviors T playerElev playerSurf x y =
        TILE_BLOCKED := by
      rw [baseTileTypeAt]
      rw [if_neg (not_not_intro hpres), if_neg hundef,
        if_neg (by rw [hledge]; simp), if_neg hwf, if_pos hcoll]
    rw [tileTypeAt, hbase]
    exact refineTileType_of_blocked _ _ T hcoll
  · decide

theorem collision_bits_classify_wall_witness :
    ((process_tiles_to_collision_map [0x0C01] 1 [0, 2] sampleBehaviorTables
        0 false).getD 0 []).getD 0 TILE_BLOCKED = TILE_BLOCKED :=
  collision_bits_classify_wall.1 [0x0C01] 1 [0, 2] sampleBehaviorTables 0 false
    0 0 (by decide) (by decide) (by decide) (by decide) (by decide)

/-- Claim C6: for a present, defined cell with zero collision bits whose
behavior is neither a ledge nor the waterfall behavior, whose elevation
(after the bridge substitution) is non-zero and differs from the player's
non-zero elevation, and which is not (elevation 3 while surfing): the
priority-chain tag (before behavior-based refinement of walkable tiles) is
`Wall` iff some orthogonal in-grid neighbor is present at the player's
elevation with zero collision bits, and `Walkable` otherwise. -/
theorem elevation_neighbor_wall_rule (tv : List Nat) (w : Nat)
    (behaviors : List Nat) (T : BehaviorTables) (playerElev : Nat)
    (playerSurf : Bool) (x y : Nat)
    (hpres : presentAt tv w (y * w + x))
    (hundef : ¬ isUndefAt tv w (y * w + x))
    (hledge : (T.LEDGE_BEHAVIOR_ID_TO_TILE.lookup
      (behIdAt tv w behaviors (y * w + x))) = none)
    (hwf : ¬(behIdAt tv w behaviors (y * w + x) ≠ -1 ∧
      behIdAt tv w behaviors (y * w + x) = T.WATERFALL_BEHAVIOR_ID))
    (hcoll : collisionBitsAt tv w (y * w + x) = 0)
    (helev : elevAt tv w playerElev (y * w + x) ≠ 0)
    (hpe : playerElev ≠ 0)
    (hne : elevAt tv w playerElev (y * w + x) ≠ playerElev)
    (hsurf : ¬(elevAt tv w playerElev (y * w + x) = 3 ∧ playerSurf = true)) :
    (baseTileTypeAt tv w behaviors T playerElev playerSurf x y = TILE_BLOCKED ↔
      adjSameElevAt tv w playerElev x y) ∧
    (baseTileTypeAt tv w behaviors T playerElev playerSurf x y = TILE_WALKABLE ↔
      ¬ adjSameElevAt tv w playerElev x y) := by
  have hbase : baseTileTypeAt tv w behaviors T playerElev playerSurf x y =
      if adjSameElevAt tv w playerElev x y then TILE_BLOCKED else TILE_WALKABLE := by
    rw [baseTileTypeAt]
    rw [if_neg (not_not_intro hpres), if_neg hundef, if_neg (by rw [hledge]; simp),
      if_neg hwf, if_neg (not_not_intro hcoll),
      if_neg (fun h => helev h.2), if_neg hpe, if_neg hne, if_neg hsurf]
  rw [hbase]
  by_cases hadj : adjSameElevAt tv w playerElev x y
  · rw [if_pos hadj]
    exact ⟨⟨fun _ => hadj, fun _ => rfl⟩,
      ⟨fun h => absurd h (by decide), fun h => absurd hadj h⟩⟩
  · rw [if_neg hadj]
    exact ⟨⟨fun h => absurd h.symm (by decide), fun h => absurd h hadj⟩,
      ⟨fun _ => hadj, fun _ => rfl⟩⟩

theorem elevation_neighbor_wall_rule_witness :
    baseTileTypeAt [0x1000, 0x2005] 2 [] sampleBehaviorTables 1 false 1 0 =
      TILE_BLOCKED ∧
    baseTileTypeAt [0x3000, 0x2005] 2 [] sampleBehaviorTables 1 false 1 0 =
      TILE_WALKABLE := by
  constructor
  · exact (elevation_neighbor_wall_rule [0x1000, 0x2005] 2 [] sampleBehaviorTables
      1 false 1 0 (by decide) (by decide) (by decide) (by decide) (by decide)
      (by decide) (by decide) (by decide) (by decide)).1.mpr (by decide)
  · exact (elevation_neighbor_wall_rule [0x3000, 0x2005] 2 [] sampleBehaviorTables
      1 false 1 0 (by decide) (by decide) (by decide) (by decide) (by decide)
      (by decide) (by decide) (by decide) (by decide)).2.mpr (by decide)

/- ===================================================================
   Party decoding (firered_bridge/player/party.py)
   =================================================================== -/

def POKEMON_DATA_SIZE : Nat := 100
def PARTY_SIZE : Nat := 6
def PID_OFFSET : Nat := 0x00
def OTID_OFFSET : Nat := 0x04
def NICKNAME_OFFSET : Nat := 0x08
def ENCRYPTED_BLOCK_OFFSET : Nat := 0x20
def ENCRYPTED_BLOCK_SIZE : Nat := 48
def SUBSTRUCTURE_SIZE : Nat := 12
def STATUS_OFFSET : Nat := 0x50
def LEVEL_OFFSET : Nat := 0x54
def CURRENT_HP_OFFSET : Nat := 0x56
def MAX_HP_OFFSET : Nat := 0x58
def ATTACK_OFFSET : Nat := 0x5A
def DEFENSE_OFFSET : Nat := 0x5C
def SPEED_OFFSET : Nat := 0x5E
def SP_ATTACK_OFFSET : Nat := 0x60
def SP_DEFENSE_OFFSET : Nat := 0x62
def SPECIES_NONE : Nat := 0

/-- Little-endian 16-bit read (`int.from_bytes(bytes[off:off+2], "little")`). -/
def u16le (raw : List Nat) (off : Nat) : Nat :=
  raw.getD off 0 + 256 * raw.getD (off + 1) 0

/-- Little-endian 32-bit read (`int.from_bytes(bytes[off:off+4], "little")`). -/
def u32le (raw : List Nat) (off : Nat) : Nat :=
  raw.getD off 0 + 256 * raw.getD (off + 1) 0 + 65536 * raw.getD (off + 2) 0 +
    16777216 * raw.getD (off + 3) 0

/-- The substructure order table indexed by `PID mod 24`. -/
def SUBSTRUCTURE_ORDER : List String :=
  ["GAEM", "GAME", "GEAM", "GEMA", "GMAE", "GMEA",
   "AGEM", "AGME", "AEGM", "AEMG", "AMGE", "AMEG",
   "EGAM", "EGMA", "EAGM", "EAMG", "EMGA", "EMAG",
   "MGAE", "MGEA", "MAGE", "MAEG", "MEGA", "MEAG"]

/-- XOR-decrypt the 48-byte encrypted block in 4-byte little-endian words
with `key = PID xor OTID`, re-serialising each word to 4 bytes. -/
def decrypted_block (enc : List Nat) (key : Nat) : List Nat :=
  (List.range (ENCRYPTED_BLOCK_SIZE / 4)).flatMap fun wordIdx =>
    let v := Nat.xor (u32le enc (4 * wordIdx)) key
    [v % 256, v / 256 % 256, v / 65536 % 256, v / 16777216 % 256]

/-- `unshuffle_substructures` for a single substructure: the 12-byte slice at
the position where `ch` occurs in `SUBSTRUCTURE_ORDER[pid mod 24]`
(`none` when the letter does not occur, mirroring the source's `None` entry). -/
def unshuffled_substructure (dec : List Nat) (pid : Nat) (ch : Char) :
    Option (List Nat) :=
  match ((SUBSTRUCTURE_ORDER.getD (pid % 24) "").toList).indexOf? ch with
  | none => none
  | some idx => some ((dec.drop (idx * SUBSTRUCTURE_SIZE)).take SUBSTRUCTURE_SIZE)

def get_species_id_from_growth (growth : List Nat) : Nat := u16le growth 0

/-- `get_species_id_for_slot` evaluated against the party memory buffer:
decrypt the slot's block, unshuffle, and read the species id (u16) from the
growth substructure; `SPECIES_NONE` when the growth substructure is absent. -/
def get_species_id_for_slot (raw : List Nat) (slot : Nat) : Nat :=
  let base := slot * POKEMON_DATA_SIZE
  let pid := u32le raw (base + PID_OFFSET)
  let otid := u32le raw (base + OTID_OFFSET)
  let enc := (raw.drop (base + ENCRYPTED_BLOCK_OFFSET)).take ENCRYPTED_BLOCK_SIZE
  let dec := decrypted_block enc (Nat.xor pid otid)
  match unshuffled_substructure dec pid 'G' with
  | none => SPECIES_NONE
  | some g => get_species_id_from_growth g

/-- `get_party_count` loop: count slots until `PID == 0` or decoded species
is `SPECIES_NONE`, capped at `PARTY_SIZE`. -/
def partyCountAux (raw : List Nat) : Nat → Nat → Nat
  | 0, count => count
  | fuel + 1, count =>
    if u32le raw (count * POKEMON_DATA_SIZE + PID_OFFSET) = 0 then count
    else if get_species_id_for_slot raw count = SPECIES_NONE then count
    else partyCountAux raw fuel (count + 1)

def get_party_count (raw : List Nat) : Nat := partyCountAux raw PARTY_SIZE 0

/-- One decoded party entry (numeric fields of the source dict; display
strings — species/move/item/ability names and the decoded nickname — come
from ROM tables outside this repository and are carried here as raw data). -/
structure PartyEntry where
  nicknameRaw : List Nat
  pid : Nat
  otid : Nat
  level : Nat
  speciesId : Nat
  statusCondition : Nat
  currentHP : Nat
  maxHP : Nat
  attack : Nat
  defense : Nat
  speed : Nat
  spAttack : Nat
  spDefense : Nat
  heldItemId : Nat
  experience : Nat
  friendship : Nat
  ppBonuses : Nat
  movesRaw : List Nat
  currentPP : List Nat
  evs : List Nat
  ivs : List Nat
  isEgg : Bool
  abilitySlot : Nat
  shiny : Bool
  deriving Repr

/-- `is_shiny`: `TID xor SID xor PID_lo xor PID_hi < 8`. -/
def is_shiny (pid otid : Nat) : Bool :=
  decide (Nat.xor (Nat.xor (Nat.xor (otid &&& 0xFFFF) ((otid >>> 16) &&& 0xFFFF))
    (pid &&& 0xFFFF)) ((pid >>> 16) &&& 0xFFFF) < 8)

/-- Build the decoded entry for one slot from its stat block and the four
unshuffled substructures. -/
def makePartyEntry (raw : List Nat) (base pid otid : Nat)
    (g a e m : List Nat) : PartyEntry :=
  let ivBitfield := u32le m 4
  { nicknameRaw := (raw.drop (base + NICKNAME_OFFSET)).take 10
    pid := pid
    otid := otid
    level := raw.getD (base + LEVEL_OFFSET) 0
    speciesId := get_species_id_from_growth g
    statusCondition := u32le raw (base + STATUS_OFFSET)
    currentHP := u16le raw (base + CURRENT_HP_OFFSET)
    maxHP := u16le raw (base + MAX_HP_OFFSET)
    attack := u16le raw (base + ATTACK_OFFSET)
    defense := u16le raw (base + DEFENSE_OFFSET)
    speed := u16le raw (base + SPEED_OFFSET)
    spAttack := u16le raw (base + SP_ATTACK_OFFSET)
    spDefense := u16le raw (base + SP_DEFENSE_OFFSET)
    heldItemId := u16le g 2
    experience := u32le g 4
    ppBonuses := g.getD 8 0
    friendship := g.getD 9 0
    movesRaw := [u16le a 0, u16le a 2, u16le a 4, u16le a 6]
    currentPP := [a.getD 8 0, a.getD 9 0, a.getD 10 0, a.getD 11 0]
    evs := [e.getD 0 0, e.getD 1 0, e.getD 2 0, e.getD 3 0, e.getD 4 0, e.getD 5 0]
    ivs := (List.range 6).map fun statIdx => (ivBitfield >>> (statIdx * 5)) &&& 0x1F
    isEgg := decide ((ivBitfield >>> 30) &&& 1 = 1)
    abilitySlot := (ivBitfield >>> 31) &&& 1
    shiny := is_shiny pid otid }

/-- Slot loop of `_get_party_data_fast_from_raw`: stop at a truncated buffer,
a zero PID or a zero decoded species; skip a slot whose substructures are
incomplete; otherwise append the decoded entry. -/
def partySlotsAux (raw : List Nat) : Nat → Nat → List PartyEntry
  | 0, _slot => []
  | fuel + 1, slot =>
    let base := slot * POKEMON_DATA_SIZE
    if raw.length < base + POKEMON_DATA_SIZE then []
    else
      let pid := u32le raw (base + PID_OFFSET)
      if pid = 0 then []
      else
        let otid := u32le raw (base + OTID_OFFSET)
        let enc := (raw.drop (base + ENCRYPTED_BLOCK_OFFSET)).take ENCRYPTED_BLOCK_SIZE
        let dec := decrypted_block enc (Nat.xor pid otid)
        match unshuffled_substructure dec pid 'G', unshuffled_substructure dec pid 'A',
          unshuffled_substructure dec pid 'E', unshuffled_substructure dec pid 'M' with
        | some g, some a, some e, some m =>
          if get_species_id_from_growth g = SPECIES_NONE then []
          else makePartyEntry raw base pid otid g a e m ::
            partySlotsAux raw fuel (slot + 1)
        | _, _, _, _ => partySlotsAux raw fuel (slot + 1)

/-- `_get_party_data_fast_from_raw`: parse the party buffer (truncated to
`PARTY_SIZE * POKEMON_DATA_SIZE` bytes as in the source); the source then
resolves species names/types/abilities entry-by-entry, preserving the list. -/
def get_party_data_fast_from_raw (raw : List Nat) : List PartyEntry :=
  if raw.length < POKEMON_DATA_SIZE then []
  else partySlotsAux (raw.take (PARTY_SIZE * POKEMON_DATA_SIZE)) PARTY_SIZE 0

lemma unshuffled_substructure_some (dec : List Nat) (pid : Nat) (ch : Char)
    (hch : ch ∈ (['G', 'A', 'E', 'M'] : List Char)) :
    ∃ s, unshuffled_substructure dec pid ch = some s := by
  have h24 : pid % 24 < 24 := Nat.mod_lt _ (by norm_num)
  have hidx : ∀ q : Fin 24, ∀ c ∈ (['G', 'A', 'E', 'M'] : List Char),
      (((SUBSTRUCTURE_ORDER.getD q.val "").toList).indexOf? c).isSome = true := by
    decide
  have hsome := hidx ⟨pid % 24, h24⟩ ch hch
  rw [unshuffled_substructure]
  cases hopt : ((SUBSTRUCTURE_ORDER.getD (pid % 24) "").toList).indexOf? ch with
  | none => rw [hopt] at hsome; simp at hsome
  | some idx => exact ⟨_, rfl⟩

lemma partySlotsAux_stop (raw : List Nat) (i : Nat)
    (hstop : u32le raw (i * POKEMON_DATA_SIZE + PID_OFFSET) = 0 ∨
      get_species_id_for_slot raw i = SPECIES_NONE) :
    ∀ fuel slot, slot ≤ i → (partySlotsAux raw fuel slot).length ≤ i - slot := by
  intro fuel
  induction fuel with
  | zero => intro slot _; simp [partySlotsAux]
  | succ f ih =>
    intro slot hslot
    rw [partySlotsAux]
    by_cases hlen : raw.length < slot * POKEMON_DATA_SIZE + POKEMON_DATA_SIZE
    · rw [if_pos hlen]; simp
    · rw [if_neg hlen]
      by_cases hpid : u32le raw (slot * POKEMON_DATA_SIZE + PID_OFFSET) = 0
      · rw [if_pos hpid]; simp
      · rw [if_neg hpid]
        dsimp only
        obtain ⟨g, hg⟩ := unshuffled_substructure_some
          (decrypted_block
            ((raw.drop (slot * POKEMON_DATA_SIZE + ENCRYPTED_BLOCK_OFFSET)).take
              ENCRYPTED_BLOCK_SIZE)
            (Nat.xor (u32le raw (slot * POKEMON_DATA_SIZE + PID_OFFSET))
              (u32le raw (slot * POKEMON_DATA_SIZE + OTID_OFFSET))))
          (u32le raw (slot * POKEMON_DATA_SIZE + PID_OFFSET)) 'G' (by decide)
        obtain ⟨a, ha⟩ := unshuffled_substructure_some
          (decrypted_block
            ((raw.drop (slot * POKEMON_DATA_SIZE + ENCRYPTED_BLOCK_OFFSET)).take
              ENCRYPTED_BLOCK_SIZE)
            (Nat.xor (u32le raw (slot * POKEMON_DATA_SIZE + PID_OFFSET))
              (u32le raw (slot * POKEMON_DATA_SIZE + OTID_OFFSET))))
          (u32le raw (slot * POKEMON_DATA_SIZE + PID_OFFSET)) 'A' (by decide)
        obtain ⟨e, he⟩ := unshuffled_substructure_some
          (decrypted_block
            ((raw.drop (slot * POKEMON_DATA_SIZE + ENCRYPTED_BLOCK_OFFSET)).take
              ENCRYPTED_BLOCK_SIZE)
            (Nat.xor (u32le raw (slot * POKEMON_DATA_SIZE + PID_OFFSET))
              (u32le raw (slot * POKEMON_DATA_SIZE + OTID_OFFSET))))
          (u32le raw (slot * POKEMON_DATA_SIZE + PID_OFFSET)) 'E' (by decide)
        obtain ⟨m, hm⟩ := unshuffled_substructure_some
          (decrypted_block
            ((raw.drop (slot * POKEMON_DATA_SIZE + ENCRYPTED_BLOCK_OFFSET)).take
              ENCRYPTED_BLOCK_SIZE)
            (Nat.xor (u32le raw (slot * POKEMON_DATA_SIZE + PID_OFFSET))
              (u32le raw (slot * POKEMON_DATA_SIZE + OTID_OFFSET))))
          (u32le raw (slot * POKEMON_DATA_SIZE + PID_OFFSET)) 'M' (by decide)
        rw [hg, ha, he, hm]
        dsimp only
        have hspecies_eq : get_species_id_from_growth g =
            get_species_id_for_slot raw slot := by
          rw [get_species_id_for_slot, hg]
        by_cases hsp : get_species_id_from_growth g = SPECIES_NONE
        · rw [if_pos hsp]; simp
        · rw [if_neg hsp]
          have hne : slot ≠ i := by
            rintro rfl
            rcases hstop with hstop | hstop
            · exact hpid hstop
            · rw [hspecies_eq] at hsp; exact hsp hstop
          have := ih (slot + 1) (by omega)
          simp only [List.length_cons]
          omega

lemma partyCountAux_le (raw : List Nat) (i : Nat)
    (hstop : u32le raw (i * POKEMON_DATA_SIZE + PID_OFFSET) = 0 ∨
      get_species_id_for_slot raw i = SPECIES_NONE) :
    ∀ fuel count, count ≤ i → partyCountAux raw fuel count ≤ i := by
  intro fuel
  induction fuel with
  | zero => intro count hc; exact hc
  | succ f ih =>
    intro count hc
    rw [partyCountAux]
    by_cases hpid : u32le raw (count * POKEMON_DATA_SIZE + PID_OFFSET) = 0
    · rw [if_pos hpid]; exact hc
    · rw [if_neg hpid]
      by_cases hsp : get_species_id_for_slot raw count = SPECIES_NONE
      · rw [if_pos hsp]; exact hc
      · rw [if_neg hsp]
        have hne : count ≠ i := by
          rintro rfl
          rcases hstop with hstop | hstop
          · exact hpid hstop
          · exact hsp hstop
        exact ih (count + 1) (by omega)

lemma getD_take_lt (l : List Nat) (n i : Nat) (d : Nat) (h : i < n) :
    (l.take n).getD i d = l.getD i d := by
  rw [List.getD_eq_getElem?_getD, List.getD_eq_getElem?_getD,
    List.getElem?_take, if_pos h]

lemma u32le_take (l : List Nat) (n off : Nat) (h : off + 3 < n) :
    u32le (l.take n) off = u32le l off := by
  rw [u32le, u32le, getD_take_lt _ _ _ _ (by omega), getD_take_lt _ _ _ _ (by omega),
    getD_take_lt _ _ _ _ (by omega), getD_take_lt _ _ _ _ (by omega)]

lemma species_for_slot_take (raw : List Nat) (i : Nat) (hi : i < PARTY_SIZE) :
    get_species_id_for_slot (raw.take (PARTY_SIZE * POKEMON_DATA_SIZE)) i =
      get_species_id_for_slot raw i := by
  have hsz : PARTY_SIZE * POKEMON_DATA_SIZE = 600 := rfl
  have hips : PARTY_SIZE = 6 := rfl
  have hpds : POKEMON_DATA_SIZE = 100 := rfl
  have hbase : i * POKEMON_DATA_SIZE ≤ 500 := by
    rw [hpds]
    calc i * 100 ≤ 5 * 100 := Nat.mul_le_mul_right 100 (by omega)
      _ = 500 := by norm_num
  have hpid : u32le (raw.take (PARTY_SIZE * POKEMON_DATA_SIZE))
      (i * POKEMON_DATA_SIZE + PID_OFFSET) =
      u32le raw (i * POKEMON_DATA_SIZE + PID_OFFSET) := by
    apply u32le_take
    rw [hsz]
    have : PID_OFFSET = 0 := rfl
    omega
  have hotid : u32le (raw.take (PARTY_SIZE * POKEMON_DATA_SIZE))
      (i * POKEMON_DATA_SIZE + OTID_OFFSET) =
      u32le raw (i * POKEMON_DATA_SIZE + OTID_OFFSET) := by
    apply u32le_take
    rw [hsz]
    have : OTID_OFFSET = 4 := rfl
    omega
  have henc : ((raw.take (PARTY_SIZE * POKEMON_DATA_SIZE)).drop
        (i * POKEMON_DATA_SIZE + ENCRYPTED_BLOCK_OFFSET)).take ENCRYPTED_BLOCK_SIZE =
      ((raw.drop (i * POKEMON_DATA_SIZE + ENCRYPTED_BLOCK_OFFSET)).take
        ENCRYPTED_BLOCK_SIZE) := by
    rw [List.drop_take, List.take_take]
    have heq : min ENCRYPTED_BLOCK_SIZE
        (PARTY_SIZE * POKEMON_DATA_SIZE - (i * POKEMON_DATA_SIZE + ENCRYPTED_BLOCK_OFFSET)) =
        ENCRYPTED_BLOCK_SIZE := by
      rw [hsz]
      have h1 : ENCRYPTED_BLOCK_SIZE = 48 := rfl
      have h2 : ENCRYPTED_BLOCK_OFFSET = 32 := rfl
      omega
    rw [heq]
  rw [get_species_id_for_slot, get_species_id_for_slot, hpid, hotid, henc]

/-- Claim C4: a party slot with PID 0 or decoded species 0 terminates the
party: if slot `i` has `PID == 0` or species id `SPECIES_NONE`, both the
parsed party list and `get_party_count` report at most `i` entries. -/
theorem party_zero_slot_terminates (raw : List Nat) (i : Nat)
    (hi : i < PARTY_SIZE)
    (hstop : u32le raw (i * POKEMON_DATA_SIZE + PID_OFFSET) = 0 ∨
      get_species_id_for_slot raw i = SPECIES_NONE) :
    (get_party_data_fast_from_raw raw).length ≤ i ∧ get_party_count raw ≤ i := by
  constructor
  · rw [get_party_data_fast_from_raw]
    by_cases hlen : raw.length < POKEMON_DATA_SIZE
    · rw [if_pos hlen]; simp
    · rw [if_neg hlen]
      have hstop2 : u32le (raw.take (PARTY_SIZE * POKEMON_DATA_SIZE))
          (i * POKEMON_DATA_SIZE + PID_OFFSET) = 0 ∨
          get_species_id_for_slot (raw.take (PARTY_SIZE * POKEMON_DATA_SIZE)) i =
            SPECIES_NONE := by
        rcases hstop with hstop | hstop
        · left
          rw [u32le_take]
          · exact hstop
          · have h1 : PARTY_SIZE * POKEMON_DATA_SIZE = 600 := rfl
            have h2 : PID_OFFSET = 0 := rfl
            have h3 : POKEMON_DATA_SIZE = 100 := rfl
            have h4 : i * POKEMON_DATA_SIZE ≤ 500 := by
              rw [h3]
              calc i * 100 ≤ 5 * 100 :=
                Nat.mul_le_mul_right 100 (by have : PARTY_SIZE = 6 := rfl; omega)
                _ = 500 := by norm_num
            omega
        · right
          rw [species_for_slot_take raw i hi]
          exact hstop
      have := partySlotsAux_stop (raw.take (PARTY_SIZE * POKEMON_DATA_SIZE)) i
        hstop2 PARTY_SIZE 0 (Nat.zero_le i)
      simpa using this
  · exact partyCountAux_le raw i hstop PARTY_SIZE 0 (Nat.zero_le i)

theorem party_zero_slot_terminates_witness :
    (get_party_data_fast_from_raw (List.replicate 100 0)).length ≤ 0 ∧
      get_party_count (List.replicate 100 0) ≤ 0 :=
  party_zero_slot_terminates (List.replicate 100 0) 0 (by decide)
    (Or.inl (by decide))

/- ===================================================================
   Bag / PC TTL caches in the state builder (firered_bridge/state/builders.py)
   =================================================================== -/

def BAG_CACHE_TTL_S : ℚ := 8 / 10

def BAG_FORCE_REFRESH_MENU_TYPES : List String :=
  ["bagMenu", "itemStorageList", "itemStorageMenu"]

def PC_FORCE_REFRESH_MENU_TYPES : List String :=
  ["pokemonStorage", "pokemonStoragePcMenu", "playerPcMenu",
   "itemStorageList", "itemStorageMenu"]

/-- The module-level bag cache (`_LAST_BAG_CACHE_KEY` / `_TS` / `_STATE`). -/
structure BagCache (α : Type) where
  key : Option Nat
  ts : ℚ
  state : Option α

/-- `bag_force_refresh = menu_type in _BAG_FORCE_REFRESH_MENU_TYPES or in_battle`. -/
def bag_force_refresh (menuType : String) (inBattle : Bool) : Bool :=
  decide (menuType ∈ BAG_FORCE_REFRESH_MENU_TYPES) || inBattle

/-- `bag_key`: the snapshot's security key, falling back to the previously
cached key when the snapshot key reads as 0. -/
def bag_cache_key {α : Type} (securityKey : Nat) (cache : BagCache α) : Nat :=
  if securityKey = 0 then
    match cache.key with
    | some k => k
    | none => 0
  else securityKey

/-- `bag_cache_valid`: no force refresh, a cached state present, a matching
cache key, and age within the TTL. -/
def bag_cache_valid {α : Type} (menuType : String) (inBattle : Bool)
    (securityKey : Nat) (cache : BagCache α) (now : ℚ) : Bool :=
  !(bag_force_refresh menuType inBattle) && cache.state.isSome &&
    (cache.key == some (bag_cache_key securityKey cache)) &&
    decide (now - cache.ts ≤ BAG_CACHE_TTL_S)

/-- The bag value used by `build_full_state`: the cached state when the
cache is valid, else a freshly decoded bag (which then repopulates the cache). -/
def bag_for_snapshot {α : Type} (menuType : String) (inBattle : Bool)
    (securityKey : Nat) (cache : BagCache α) (now : ℚ) (fresh : α) : α :=
  if bag_cache_valid menuType inBattle securityKey cache now then
    cache.state.getD fresh
  else fresh

/-- Counterexample to claim C5 as stated: with `menuType = "pokemonStorage"`
(and not in battle) the bag cache is NOT force-refreshed — the menu type
belongs only to the PC force-refresh set — and a valid cached bag is reused. -/
theorem bag_cache_pokemonStorage_not_refreshed :
    bag_force_refresh "pokemonStorage" false = false ∧
    bag_force_refresh "pokemonStoragePcMenu" false = false ∧
    bag_force_refresh "playerPcMenu" false = false ∧
    "pokemonStorage" ∈ PC_FORCE_REFRESH_MENU_TYPES ∧
    bag_for_snapshot "pokemonStorage" false 7
      ({ key := some 7, ts := 0, state := some 1 } : BagCache Nat) (1 / 2) 2 = 1 := by
  refine ⟨by decide, by decide, by decide, by decide, ?_⟩
  have hvalid : bag_cache_valid "pokemonStorage" false 7
      ({ key := some 7, ts := 0, state := some 1 } : BagCache Nat) (1 / 2) = true := by
    rw [bag_cache_valid]
    norm_num [bag_force_refresh, BAG_FORCE_REFRESH_MENU_TYPES, bag_cache_key,
      BAG_CACHE_TTL_S]
    decide
  rw [bag_for_snapshot, if_pos hvalid]
  rfl

/-- Claim C5 (amended): the bag TTL cache is force-refreshed exactly when
`menuType` is one of bagMenu, itemStorageList, itemStorageMenu, or the
player is in battle (the pokemonStorage / pokemonStoragePcMenu /
playerPcMenu menu types force-refresh only the PC cache); otherwise a bag
cached at most 0.8 s earlier under the same security-key cache key is
reused, and on a force refresh the fresh bag is used. -/
theorem bag_cache_refresh_policy (α : Type) :
    (∀ menuType inBattle, bag_force_refresh menuType inBattle = true ↔
      (menuType = "bagMenu" ∨ menuType = "itemStorageList" ∨
        menuType = "itemStorageMenu" ∨ inBattle = true)) ∧
    (∀ (menuType : String) (inBattle : Bool) (securityKey : Nat) (st : α)
      (ts now : ℚ) (fresh : α),
      bag_force_refresh menuType inBattle = false →
      now - ts ≤ BAG_CACHE_TTL_S →
      bag_for_snapshot menuType inBattle securityKey
        { key := some securityKey, ts := ts, state := some st } now fresh = st) ∧
    (∀ (menuType : String) (inBattle : Bool) (securityKey : Nat)
      (cache : BagCache α) (now : ℚ) (fresh : α),
      bag_force_refresh menuType inBattle = true →
      bag_for_snapshot menuType inBattle securityKey cache now fresh = fresh) := by
  refine ⟨?_, ?_, ?_⟩
  · intro menuType inBattle
    rw [bag_force_refresh, BAG_FORCE_REFRESH_MENU_TYPES]
    simp [List.mem_cons, or_assoc]
  · intro menuType inBattle securityKey st ts now fresh hforce httl
    have hkey : bag_cache_key securityKey
        ({ key := some securityKey, ts := ts, state := some st } : BagCache α) =
        securityKey := by
      rw [bag_cache_key]
      by_cases h0 : securityKey = 0
      · rw [if_pos h0]
      · rw [if_neg h0]
    have hvalid : bag_cache_valid menuType inBattle securityKey
        ({ key := some securityKey, ts := ts, state := some st } : BagCache α)
        now = true := by
      rw [bag_cache_valid, hforce, hkey]
      simp [httl]
    rw [bag_for_snapshot, if_pos hvalid]
    rfl
  · intro menuType inBattle securityKey cache now fresh hforce
    have hvalid : bag_cache_valid menuType inBattle securityKey cache now = false := by
      rw [bag_cache_valid, hforce]
      rfl
    rw [bag_for_snapshot, hvalid, if_neg (by simp)]

theorem bag_cache_refresh_policy_witness :
    bag_for_snapshot "startMenu" false 5
      ({ key := some 5, ts := 0, state := some 3 } : BagCache Nat) (1 / 2) 4 = 3 ∧
    bag_for_snapshot "bagMenu" false 5
      ({ key := some 5, ts := 0, state := some 3 } : BagCache Nat) (1 / 2) 4 = 4 := by
  constructor
  · have hforce : bag_force_refresh "startMenu" false = false := by decide
    have httl : (1 / 2 : ℚ) - 0 ≤ BAG_CACHE_TTL_S := by
      norm_num [BAG_CACHE_TTL_S]
    exact (bag_cache_refresh_policy Nat).2.1 "startMenu" false 5 3 0 (1 / 2) 4
      hforce httl
  · have hforce : bag_force_refresh "bagMenu" false = true := by decide
    exact (bag_cache_refresh_policy Nat).2.2 "bagMenu" false 5
      { key := some 5, ts := 0, state := some 3 } (1 / 2) 4 hforce

/- ===================================================================
   Flash / strength state (firered_bridge/player/snapshot.py)
   =================================================================== -/

def FLAG_SYS_USE_FLASH : Nat := 0x806
def FLAG_SYS_USE_STRENGTH : Nat := 0x805

/-- `_read_flash_and_strength_active_flags`: decode the two system-flag bits
from the shared flags byte; both false when the saveblock-1 pointer is 0. -/
def read_flash_and_strength_active_flags (sb1Ptr flagByte : Nat) : Bool × Bool :=
  if sb1Ptr = 0 then (false, false)
  else
    (decide (flagByte &&& (1 <<< (FLAG_SYS_USE_FLASH % 8)) ≠ 0),
     decide (flagByte &&& (1 <<< (FLAG_SYS_USE_STRENGTH % 8)) ≠ 0))

/-- `_read_flash_and_strength_state`: `(flash_needed, flash_active,
strength_enabled)` where `flash_needed` is the map header's cave byte being
non-zero, and `flash_active` is cleared whenever the map is not a cave. -/
def read_flash_and_strength_state (sb1Ptr caveByte flagByte : Nat) :
    Bool × Bool × Bool :=
  let flashNeeded := decide (caveByte ≠ 0)
  let active := read_flash_and_strength_active_flags sb1Ptr flagByte
  let flashActive := if !flashNeeded then false else active.1
  (flashNeeded, flashActive, active.2)

/-- Claim C10: every snapshot satisfies `flashActive → flashNeeded`: when
the current map header's cave byte is 0, the reported `flashActive` is
false even if the FLAG_SYS_USE_FLASH bit is set in the flags byte. -/
theorem flash_active_implies_flash_needed (sb1Ptr caveByte flagByte : Nat) :
    ((read_flash_and_strength_state sb1Ptr caveByte flagByte).2.1 = true →
      (read_flash_and_strength_state sb1Ptr caveByte flagByte).1 = true) ∧
    (caveByte = 0 →
      (read_flash_and_strength_state sb1Ptr caveByte flagByte).2.1 = false) := by
  rw [read_flash_and_strength_state]
  by_cases hcave : caveByte = 0
  · simp [hcave]
  · simp [hcave]

theorem flash_active_implies_flash_needed_witness :
    (read_flash_and_strength_state 1 0 0xFF).2.1 = false :=
  (flash_active_implies_flash_needed 1 0 0xFF).2 rfl

/- ===================================================================
   Input controller: send_commands (firered_mgba_bridge.py)
   =================================================================== -/

/-- One normalized bridge command (an entry of `normalized_commands`); dict
entries with an unrecognized `type` become `other` (they produce a per-step
error but are still iterated). -/
inductive BridgeCommand where
  | press (buttons : List String)
  | hold (button : String) (frames : Nat)
  | control (command : String)
  | controlStatus
  | other
  deriving DecidableEq, Repr

/-- One entry of the submitted `body.commands` list: a string, a command
object, or anything else (ignored by normalization). -/
inductive RawCommand where
  | str (s : String)
  | obj (c : BridgeCommand)
  | other
  deriving DecidableEq, Repr

/-- Python `str.strip()`: remove leading and trailing whitespace (modelled
on the character list so it evaluates inside the kernel). -/
def strip_string (s : String) : String :=
  String.mk (((s.toList.dropWhile Char.isWhitespace).reverse.dropWhile
    Char.isWhitespace).reverse)

/-- The normalization loop of `send_commands`: strings are stripped and
become `control` objects (blank strings are skipped), dict entries pass
through, anything else is dropped. -/
def normalize_commands : List RawCommand → List BridgeCommand
  | [] => []
  | RawCommand.str s :: rest =>
    if strip_string s = "" then normalize_commands rest
    else BridgeCommand.control (strip_string s) :: normalize_commands rest
  | RawCommand.obj c :: rest => c :: normalize_commands rest
  | RawCommand.other :: rest => normalize_commands rest

/-- The fields of `build_input_trace_state()` that the `send_commands` loop
inspects (map identity, player position, dialog/battle/lock state).  In a
real trace the map group/number and position are always integers, so the
source's `pos_ok` / integer checks hold. -/
structure TraceState where
  mapGroup : Int
  mapNumber : Int
  posX : Int
  posY : Int
  inDialog : Bool
  inBattle : Bool
  fieldLocked : Bool
  deriving DecidableEq, Repr

/-- `command.strip().lower().replace("-", "_")`: strip, ASCII-lowercase and
hyphen-to-underscore, modelled per character (the replace pattern is the
single character `-`). -/
def normalize_control_command (command : String) : String :=
  String.mk (((strip_string command).toList.map Char.toLower).map fun ch =>
    if ch = '-' then '_' else ch)

def DIRECTIONAL_CONTROL_COMMANDS : List String := ["up", "down", "left", "right"]

def is_directional_control_command (command : String) : Bool :=
  decide (normalize_control_command command ∈ DIRECTIONAL_CONTROL_COMMANDS)

def trace_map_tuple (s : TraceState) : Int × Int := (s.mapGroup, s.mapNumber)

def trace_position_tuple (s : TraceState) : Int × Int := (s.posX, s.posY)

/-- "Overworld-ness" used by the collision-streak check: no dialog, no
battle, field controls unlocked. -/
def overworld_state (s : TraceState) : Bool :=
  !s.inDialog && !s.inBattle && !s.fieldLocked

/-- Collision-streak update for one executed step: a directional control
with same map, same position and overworld state before and after increments
the streak; every other step resets it to 0. -/
def collision_streak_update (cmd : BridgeCommand) (before after : TraceState)
    (streak : Nat) : Nat :=
  match cmd with
  | BridgeCommand.control c =>
    if is_directional_control_command c then
      if trace_map_tuple before = trace_map_tuple after ∧
          overworld_state before = true ∧ overworld_state after = true ∧
          trace_position_tuple before = trace_position_tuple after then
        streak + 1
      else 0
    else 0
  | _ => 0

/-- The outcome fields of `send_commands` the claims are about. -/
structure SendCommandsResult where
  remainingKeys : List BridgeCommand
  interruptedByDialog : Bool
  interruptedByBattle : Bool
  interruptedByCollision : Bool
  collisionStreak : Nat
  interruptedAtIndex : Option Nat
  deriving DecidableEq, Repr

/-- Requeue test for an interrupting step: the current command is requeued
exactly when it is a directional control whose before/after states show the
same map and an unchanged player position. -/
def requeue_current (cmd : BridgeCommand) (before after : TraceState) : Bool :=
  (match cmd with
   | BridgeCommand.control c => is_directional_control_command c
   | _ => false) &&
  decide (trace_map_tuple before = trace_map_tuple after) &&
  decide (trace_position_tuple before = trace_position_tuple after)

/-- The per-step loop of `send_commands` over the normalized command list.
`obs idx` gives the observed `(before, after)` trace states of step `idx`
(in the source these come from the emulator around executing the command).
Checks happen in source order: collision-streak stop at 5 first, then
dialog/battle interruption with the requeue rule. -/
def send_commands_loop (obs : Nat → TraceState × TraceState)
    (startedInDialog startedInBattle : Bool) :
    List BridgeCommand → Nat → Nat → SendCommandsResult
  | [], _idx, streak =>
    { remainingKeys := []
      interruptedByDialog := false
      interruptedByBattle := false
      interruptedByCollision := false
      collisionStreak := streak
      interruptedAtIndex := none }
  | cmd :: rest, idx, streak =>
    let before := (obs idx).1
    let after := (obs idx).2
    let streak1 := collision_streak_update cmd before after streak
    if streak1 ≥ 5 then
      { remainingKeys := rest
        interruptedByDialog := false
        interruptedByBattle := false
        interruptedByCollision := true
        collisionStreak := streak1
        interruptedAtIndex := some idx }
    else
      let enteredDialog := !startedInDialog && after.inDialog
      let enteredBattle := !startedInBattle && after.inBattle
      if enteredDialog || enteredBattle then
        { remainingKeys :=
            if requeue_current cmd before after then cmd :: rest else rest
          interruptedByDialog := enteredDialog
          interruptedByBattle := enteredBattle
          interruptedByCollision := false
          collisionStreak := streak1
          interruptedAtIndex := some idx }
      else send_commands_loop obs startedInDialog startedInBattle rest (idx + 1) streak1

/-- `send_commands`: normalize the submitted commands, then run the step
loop from index 0 with a zero collision streak; the started-in flags come
from the sequence-level pre-state. -/
def send_commands (obs : Nat → TraceState × TraceState) (seqBefore : TraceState)
    (raws : List RawCommand) : SendCommandsResult :=
  send_commands_loop obs seqBefore.inDialog seqBefore.inBattle
    (normalize_commands raws) 0 0

/-- Claim C7: (1) a directional control step with same map, same position
and overworld state before and after increments the collision streak, and
every other executed step resets it to 0; (2) when the updated streak
reaches 5, the sequence stops with `interruptedByCollision = true` and the
unexecuted commands in `remainingKeys`. -/
theorem collision_streak_rule :
    (∀ cmd before after streak,
      collision_streak_update cmd before after streak =
        if (match cmd with
            | BridgeCommand.control c => is_directional_control_command c
            | _ => false) = true ∧
            trace_map_tuple before = trace_map_tuple after ∧
            overworld_state before = true ∧ overworld_state after = true ∧
            trace_position_tuple before = trace_position_tuple after then
          streak + 1
        else 0) ∧
    (∀ obs startedInDialog startedInBattle cmd rest idx streak,
      collision_streak_update cmd (obs idx).1 (obs idx).2 streak ≥ 5 →
      send_commands_loop obs startedInDialog startedInBattle (cmd :: rest) idx
          streak =
        { remainingKeys := rest
          interruptedByDialog := false
          interruptedByBattle := false
          interruptedByCollision := true
          collisionStreak := collision_streak_update cmd (obs idx).1 (obs idx).2 streak
          interruptedAtIndex := some idx }) := by
  constructor
  · intro cmd before after streak
    match cmd with
    | BridgeCommand.control c =>
      rw [collision_streak_update]
      by_cases hdir : is_directional_control_command c = true
      · rw [if_pos hdir]
        by_cases hcond : trace_map_tuple before = trace_map_tuple after ∧
            overworld_state before = true ∧ overworld_state after = true ∧
            trace_position_tuple before = trace_position_tuple after
        · rw [if_pos hcond, if_pos ⟨hdir, hcond⟩]
        · rw [if_neg hcond, if_neg (fun h => hcond h.2)]
      · rw [if_neg hdir, if_neg (fun h => hdir h.1)]
    | BridgeCommand.press buttons =>
      rw [if_neg (fun h => Bool.false_ne_true h.1)]; rfl
    | BridgeCommand.hold button frames =>
      rw [if_neg (fun h => Bool.false_ne_true h.1)]; rfl
    | BridgeCommand.controlStatus =>
      rw [if_neg (fun h => Bool.false_ne_true h.1)]; rfl
    | BridgeCommand.other =>
      rw [if_neg (fun h => Bool.false_ne_true h.1)]; rfl
  · intro obs startedInDialog startedInBattle cmd rest idx streak hstreak
    rw [send_commands_loop]
    rw [if_pos hstreak]

/-- The fixed observation stream used by the C7 witness: every step is a
directional bump in place (same map, same overworld position). -/
def bumpTrace : TraceState :=
  { mapGroup := 3, mapNumber := 1, posX := 10, posY := 4,
    inDialog := false, inBattle := false, fieldLocked := false }

def bumpObs : Nat → TraceState × TraceState := fun _ => (bumpTrace, bumpTrace)

theorem collision_streak_rule_witness :
    collision_streak_update (BridgeCommand.control "up") bumpTrace bumpTrace 4 = 5 ∧
    send_commands_loop bumpObs false false [BridgeCommand.control "up",
        BridgeCommand.control "left"] 7 4 =
      { remainingKeys := [BridgeCommand.control "left"]
        interruptedByDialog := false
        interruptedByBattle := false
        interruptedByCollision := true
        collisionStreak := 5
        interruptedAtIndex := some 7 } := by
  have h1 : collision_streak_update (BridgeCommand.control "up") bumpTrace
      bumpTrace 4 = 5 := by
    rw [(collision_streak_rule).1 (BridgeCommand.control "up") bumpTrace bumpTrace 4]
    rw [if_pos (by refine ⟨?_, rfl, rfl, rfl, rfl⟩; decide)]
  refine ⟨h1, ?_⟩
  have h2 := (collision_streak_rule).2 bumpObs false false
    (BridgeCommand.control "up") [BridgeCommand.control "left"] 7 4
    (by rw [show (bumpObs 7).1 = bumpTrace from rfl,
          show (bumpObs 7).2 = bumpTrace from rfl, h1])
  rw [h2]
  rw [show (bumpObs 7).1 = bumpTrace from rfl, show (bumpObs 7).2 = bumpTrace from rfl,
    h1]

/-- Observation stream for the interruption cases: each step starts in the
overworld and ends one tile south with a dialog open. -/
def dialogEnterObs : Nat → TraceState × TraceState := fun _ =>
  (bumpTrace,
   { mapGroup := 3, mapNumber := 1, posX := 10, posY := 5,
     inDialog := true, inBattle := false, fieldLocked := false })

/-- Counterexample to claim C8 as stated: `remaining_keys` is a tail of the
NORMALIZED command list, not of the submitted one — submitting the strings
`["up", "right"]`, a position-changing step 0 that enters a dialog leaves
`remaining_keys = [control "right"]`, a command object, not the submitted
string `"right"`. -/
theorem remaining_keys_not_submitted_verbatim :
    (send_commands dialogEnterObs bumpTrace
        [RawCommand.str "up", RawCommand.str "right"]).remainingKeys =
      [BridgeCommand.control "right"] ∧
    (send_commands dialogEnterObs bumpTrace
        [RawCommand.str "up", RawCommand.str "right"]).remainingKeys.map
        RawCommand.obj ≠
      List.drop 1 [RawCommand.str "up", RawCommand.str "right"] := by
  constructor
  · decide
  · decide

/-- Claim C8 (amended): when a step ends in dialog or battle although the
sequence started in neither, the loop stops and `remaining_keys` carries the
unexecuted tail of the NORMALIZED command list (string commands are
normalized into control objects first; for submissions made of command
objects this is the submitted tail verbatim); the tail includes the current
command exactly when it was a directional control whose before/after states
show the same map and an unchanged player position, and starts at the next
command otherwise. -/
theorem dialog_battle_interruption_rule
    (obs : Nat → TraceState × TraceState) (cmd : BridgeCommand)
    (rest : List BridgeCommand) (idx streak : Nat)
    (hd : (obs idx).2.inDialog = true ∨ (obs idx).2.inBattle = true) :
    send_commands_loop obs false false (cmd :: rest) idx streak =
      { remainingKeys :=
          if requeue_current cmd (obs idx).1 (obs idx).2 then cmd :: rest else rest
        interruptedByDialog := (obs idx).2.inDialog
        interruptedByBattle := (obs idx).2.inBattle
        interruptedByCollision := false
        collisionStreak := 0
        interruptedAtIndex := some idx } := by
  have how : overworld_state (obs idx).2 = false := by
    rw [overworld_state]
    rcases hd with h | h <;> simp [h]
  have hstreak1 : collision_streak_update cmd (obs idx).1 (obs idx).2 streak = 0 := by
    match cmd with
    | BridgeCommand.control c =>
      rw [collision_streak_update]
      by_cases hdir : is_directional_control_command c = true
      · rw [if_pos hdir,
          if_neg (fun h => by rw [how] at h; exact Bool.false_ne_true h.2.2.1)]
      · rw [if_neg hdir]
    | BridgeCommand.press buttons => rfl
    | BridgeCommand.hold button frames => rfl
    | BridgeCommand.controlStatus => rfl
    | BridgeCommand.other => rfl
  rw [send_commands_loop]
  dsimp only
  rw [hstreak1, if_neg (by omega)]
  simp only [Bool.not_false, Bool.true_and]
  rw [if_pos (by rcases hd with h | h <;> simp [h])]

theorem dialog_battle_interruption_rule_witness :
    send_commands_loop dialogEnterObs false false
        [BridgeCommand.control "up", BridgeCommand.control "right"] 0 0 =
      { remainingKeys := [BridgeCommand.control "right"]
        interruptedByDialog := true
        interruptedByBattle := false
        interruptedByCollision := false
        collisionStreak := 0
        interruptedAtIndex := some 0 } := by
  have h := dialog_battle_interruption_rule dialogEnterObs
    (BridgeCommand.control "up") [BridgeCommand.control "right"] 0 0 (Or.inl rfl)
  rw [h]
  decide
